import Mathlib

/-!
Verification of the cosmological model-fitting engine in
`erasure_pantheon_analysis.py` (classes `CosmologyModel`, `LambdaCDM`,
`PowerLawErasure`; functions `chi_squared`, `fit_erasure.objective`,
`model_comparison`).

Modelling conventions for the shallow embedding:
* Python floats are modelled as `ℚ` where the code only adds, multiplies,
  divides and compares (grid validation, the fitter's objective, `np.interp`),
  and as `ℝ` where the code takes square roots, real powers, logarithms or
  integrals.
* A float NaN is modelled as `Option.none`; a function that can return the
  NaN sentinel returns an `Option`.
* The two external numerical routines, `scipy.integrate.solve_ivp` and
  `scipy.integrate.quad`, are oracles: their outcome (`none` = the routine
  raised or did not converge, `some v` = it returned `v`) is an explicit
  argument of the embedded caller.  Everything the repository's own code does
  with that outcome is embedded faithfully.
* `differential_evolution` returns the evaluated candidate with the smallest
  objective value; it is embedded as a fold over the list of candidate
  parameter vectors it probes (each candidate carrying its oracle outcomes).
-/

namespace Cosmo

/-! ## Density evolution grids (`PowerLawErasure._compute_evolution`) -/

/-- Redshift grid `z_grid = 1.0/sol.t - 1` built from the scale-factor
sample points (`a_eval`, which the code also uses as `t_eval`). -/
def zGrid (a_eval : List ℚ) : List ℚ :=
  a_eval.map (fun a => 1 / a - 1)

/-- Negative-density check `np.any(Om_grid < 0) or np.any(Ode_grid < 0)`. -/
def hasNegative (om ode : List ℚ) : Bool :=
  om.any (fun x => x < 0) || ode.any (fun x => x < 0)

/-- Element-wise deviations `|Om_grid/(1+z_grid)**3 + Ode_grid - 1.0|`. -/
def deviations (zs om ode : List ℚ) : List ℚ :=
  (zs.zip (om.zip ode)).map (fun t => |t.2.1 / (1 + t.1) ^ 3 + t.2.2 - 1|)

/-- The code's `max_deviation = np.max(np.abs(total_omega - 1.0))` (the grid
is never empty; the fold base `0` is below every absolute value anyway). -/
def maxDeviation (zs om ode : List ℚ) : ℚ :=
  (deviations zs om ode).foldl max 0

/-- The state a `PowerLawErasure` instance stores after `_compute_evolution`:
the three grids and the `failed` flag. -/
structure EvolutionGrids where
  z_grid : List ℚ
  om_grid : List ℚ
  ode_grid : List ℚ
  failed : Bool

/-- The `except` branch of `_compute_evolution`: flat `0.01` grids and
`failed = True`. -/
def degenerateGrids (a_eval : List ℚ) : EvolutionGrids :=
  ⟨zGrid a_eval, a_eval.map (fun _ => 1/100), a_eval.map (fun _ => 1/100), true⟩

/-- Body of `PowerLawErasure._compute_evolution` after the ODE call: `sol` is
the solver oracle's outcome (`none` = `solve_ivp` raised or `sol.success` was
false, `some (om, ode)` = the sampled solution rows `sol.y[0]`, `sol.y[1]`).
The code raises `ValueError` on a negative sampled density or on a total
physical density deviating from 1 by more than 0.5, and the surrounding
`try/except` converts every such raise into the degenerate state. -/
def computeEvolution (a_eval : List ℚ) (sol : Option (List ℚ × List ℚ)) :
    EvolutionGrids :=
  match sol with
  | none => degenerateGrids a_eval
  | some (om, ode) =>
    if hasNegative om ode then degenerateGrids a_eval
    else if 1/2 < maxDeviation (zGrid a_eval) om ode then degenerateGrids a_eval
    else ⟨zGrid a_eval, om, ode, false⟩

/-! ## The fitter's objective (`fit_erasure.objective`) -/

/-- One parameter vector probed by `differential_evolution`, together with the
outcomes of the numeric oracles for it: the ODE solve used to construct its
`PowerLawErasure` instance, and the chi-squared value (`none` models a
NaN/infinite `chi2`). -/
structure Candidate where
  sol : Option (List ℚ × List ℚ)
  chi2 : Option ℚ

/-- The objective of `fit_erasure`: `1e10` when the constructed model is
degenerate or the chi-squared is NaN/infinite, the chi-squared otherwise. -/
def objective (a_eval : List ℚ) (cand : Candidate) : ℚ :=
  if (computeEvolution a_eval cand.sol).failed then 1e10
  else
    match cand.chi2 with
    | none => 1e10
    | some v => v

/-- The candidate `differential_evolution` returns: the probed candidate with
the smallest objective value (first in case of ties). -/
def bestCandidate (a_eval : List ℚ) (c0 : Candidate) (cs : List Candidate) :
    Candidate :=
  cs.foldl (fun b x => if objective a_eval x < objective a_eval b then x else b) c0

/-! ## The ODE right-hand side (`_compute_evolution.derivatives`) -/

/-- The code's `np.clip(x, lo, hi)`, which is `min(hi, max(x, lo))`. -/
noncomputable def clip (x lo hi : ℝ) : ℝ := min hi (max x lo)

/-- The guarded scale-factor power: `a**(-alpha)` capped at `1e6` when
`alpha < 0 and a < 0.01`. -/
noncomputable def aAlphaTerm (alpha a : ℝ) : ℝ :=
  if alpha < 0 ∧ a < 0.01 then min (a ^ (-alpha)) 1e6 else a ^ (-alpha)

/-- The inner function `derivatives(a, y)` of `_compute_evolution`: clip both
densities to `[1e-10, 10]`, stop with zero derivative when `E² < 1e-10`,
otherwise form the clamped interaction term and return
`(dOm/da, dOde/da)`. -/
noncomputable def derivatives (beta alpha a Om Ode : ℝ) : ℝ × ℝ :=
  let Omc := clip Om 1e-10 10
  let Odec := clip Ode 1e-10 10
  let E_squared := Omc / a ^ 3 + Odec
  if E_squared < 1e-10 then (0, 0)
  else
    let E := Real.sqrt E_squared
    let Q0 := beta * Omc * aAlphaTerm alpha a / (a ^ 4 * E)
    let Q_term := clip Q0 (-100 * Omc / a) (100 * Omc / a)
    (-(3 * Omc / a) - Q_term, Q_term)

/-! ## Chi-squared (`chi_squared`) -/

/-- Function `chi_squared(model, z_data, mu_data, mu_err)`: the model is
abstracted to its distance-modulus map `mu` (`none` = NaN prediction), the
three data arrays to a list of `(z, mu_obs, err)` triples, and the loop to a
left fold accumulating `(chi2, n_valid)`. -/
noncomputable def chi_squared (mu : ℝ → Option ℝ) (data : List (ℝ × ℝ × ℝ)) :
    ℝ × ℕ :=
  data.foldl (fun acc obs =>
    match mu obs.1 with
    | none => acc
    | some m => (acc.1 + ((obs.2.1 - m) / obs.2.2) ^ 2, acc.2 + 1)) (0, 0)

/-! ## Model comparison (`model_comparison`) -/

/-- The qualitative classifications the code prints for each criterion. -/
inductive Verdict where
  | strongB
  | moderateB
  | weakB
  | comparable
  | aPreferred
deriving DecidableEq

/-- What `model_comparison` computes (returned deltas plus the printed
verdict of each criterion). -/
structure ComparisonResult where
  delta_chi2 : ℝ
  delta_aic : ℝ
  delta_bic : ℝ
  chi2_verdict : Verdict
  aic_verdict : Verdict
  bic_verdict : Verdict

/-- Function `model_comparison` of the analysis script (the erasure model's
dof is only echoed in prints, never used in a formula). -/
noncomputable def model_comparison (lcdm_chi2 lcdm_dof erasure_chi2 erasure_dof : ℝ) :
    ComparisonResult :=
  let delta_chi2 := lcdm_chi2 - erasure_chi2
  let delta_params : ℝ := 2
  let threshold_weak := 2 * delta_params
  let threshold_strong := 10 * delta_params
  let chi2_verdict :=
    if delta_chi2 > threshold_strong then Verdict.strongB
    else if delta_chi2 > threshold_weak then Verdict.weakB
    else if delta_chi2 > 0 then Verdict.comparable
    else Verdict.aPreferred
  let k_lcdm : ℝ := 2
  let k_erasure : ℝ := 4
  let aic_lcdm := lcdm_chi2 + 2 * k_lcdm
  let aic_erasure := erasure_chi2 + 2 * k_erasure
  let delta_aic := aic_lcdm - aic_erasure
  let aic_verdict :=
    if delta_aic > 10 then Verdict.strongB
    else if delta_aic > 4 then Verdict.moderateB
    else if delta_aic > 0 then Verdict.comparable
    else Verdict.aPreferred
  let n := lcdm_dof + k_lcdm
  let bic_lcdm := lcdm_chi2 + k_lcdm * Real.log n
  let bic_erasure := erasure_chi2 + k_erasure * Real.log n
  let delta_bic := bic_lcdm - bic_erasure
  let bic_verdict :=
    if delta_bic > 10 then Verdict.strongB
    else if delta_bic > 6 then Verdict.moderateB
    else if delta_bic > 0 then Verdict.comparable
    else Verdict.aPreferred
  ⟨delta_chi2, delta_aic, delta_bic, chi2_verdict, aic_verdict, bic_verdict⟩

/-- Classification of the chi-squared difference, transcribed from the spec's
threshold sentence. -/
noncomputable def specChi2Class (d dk : ℝ) : Verdict :=
  if d > 10 * dk then Verdict.strongB
  else if d > 2 * dk then Verdict.weakB
  else if d > 0 then Verdict.comparable
  else Verdict.aPreferred

/-- Classification of the AIC difference, transcribed from the spec. -/
noncomputable def specAICClass (d : ℝ) : Verdict :=
  if d > 10 then Verdict.strongB
  else if d > 4 then Verdict.moderateB
  else if d > 0 then Verdict.comparable
  else Verdict.aPreferred

/-- Classification of the BIC difference, transcribed from the spec. -/
noncomputable def specBICClass (d : ℝ) : Verdict :=
  if d > 10 then Verdict.strongB
  else if d > 6 then Verdict.moderateB
  else if d > 0 then Verdict.comparable
  else Verdict.aPreferred

/-! ## Interpolation (`PowerLawErasure.E` and `np.interp`) -/

/-- Interior segment scan of a linear interpolation assuming an ascending
abscissa list (on a grid satisfying the documented increasing-`xp`
precondition this equals numpy's binary-search result). -/
def scanSegments : ℚ → List (ℚ × ℚ) → ℚ
  | _, [] => 0
  | _, [p] => p.2
  | x, p :: q :: rest =>
    if x < q.1 then p.2 + (q.2 - p.2) * (x - p.1) / (q.1 - p.1)
    else scanSegments x (q :: rest)

/-- The `np.interp(x, xp, fp, left, right)` kernel for a scalar query: a key
above the LAST abscissa returns `right`, a key below the FIRST returns
`left` (these bounds checks run first and assume `xp` ascending), interior
keys are linearly interpolated on the segments. -/
def npInterp (x : ℚ) (xp fp : List ℚ) (l r : ℚ) : ℚ :=
  match xp, fp with
  | [], _ => 0
  | _, [] => 0
  | x0 :: xrest, y0 :: yrest =>
    if xrest.getLastD x0 < x then r
    else if x < x0 then l
    else scanSegments x ((x0 :: xrest).zip (y0 :: yrest))

/-- Clamped linear interpolation on an increasing grid, transcribed from the
spec's words: values outside the grid range take the edge values, interior
values are linearly interpolated. -/
def linInterpClamped (x : ℚ) (xp fp : List ℚ) : ℚ :=
  match xp, fp with
  | [], _ => 0
  | _, [] => 0
  | x0 :: xrest, y0 :: yrest =>
    if x ≤ x0 then y0
    else if xrest.getLastD x0 ≤ x then yrest.getLastD y0
    else scanSegments x ((x0 :: xrest).zip (y0 :: yrest))

/-! ## Distances (`CosmologyModel.luminosity_distance`, `distance_modulus`) -/

/-- The constant `self.c = 299792.458` (km/s). -/
noncomputable def cLight : ℝ := 299792.458

/-- Method `luminosity_distance(z)`: linear Hubble law below `z = 1e-5`,
otherwise `(c/H0)·I·(1+z)` where `I` is the quadrature oracle's outcome for
`∫ dz'/E`; `none` models every failure inside the `try` block (the integral
does not converge, the integrand is invalid because `E` is non-positive, or
the `E` evaluation itself raises) and is converted by the `except` branch to
the NaN sentinel.  The function is total: it never propagates an
exception. -/
noncomputable def luminosity_distance (H0 z : ℝ) (quad : Option ℝ) : Option ℝ :=
  if z < 1e-5 then some (cLight / H0 * z)
  else
    match quad with
    | none => none
    | some integral => some (cLight / H0 * integral * (1 + z))

/-- Method `distance_modulus(z)` applied to the luminosity-distance outcome:
NaN propagates, a non-positive distance gives NaN, otherwise
`5·log10(D_L) + 25`. -/
noncomputable def distance_modulus (dL : Option ℝ) : Option ℝ :=
  match dL with
  | none => none
  | some d => if d ≤ 0 then none else some (5 * Real.logb 10 d + 25)

/-! ## The idealized quadrature model of `luminosity_distance` -/

/-- `luminosity_distance` in the idealized model where the adaptive
quadrature converges to the exact integral `∫ dz'/E(z')` (the tolerances
`epsabs = epsrel = 1e-8` make this the intended semantics): linear branch
below `1e-5`, `(c/H0)·(∫ dz'/E)·(1+z)` above. -/
noncomputable def lumDistConv (H0 : ℝ) (E : ℝ → ℝ) (z : ℝ) : ℝ :=
  if z < 1e-5 then cLight / H0 * z
  else cLight / H0 * (∫ t in (0:ℝ)..z, 1 / E t) * (1 + z)

/-! ## The closed-form `LambdaCDM` history (`LambdaCDM.E`) -/

/-- Method `LambdaCDM.E`: `sqrt(Om0·(1+z)³ + Ode0)` with `Ode0 = 1 - Om0`. -/
noncomputable def E_lcdm (Om0 z : ℝ) : ℝ :=
  Real.sqrt (Om0 * (1 + z) ^ 3 + (1 - Om0))

/-! ## Lemmas and theorems -/

lemma bestCandidate_le (a_eval : List ℚ) (c0 : Candidate) (cs : List Candidate) :
    ∀ y ∈ c0 :: cs, objective a_eval (bestCandidate a_eval c0 cs) ≤ objective a_eval y := by
  induction cs generalizing c0 with
  | nil =>
    intro y hy
    have h : y = c0 := by simpa using hy
    subst h; exact le_refl _
  | cons c cs ih =>
    intro y hy
    set p := if objective a_eval c < objective a_eval c0 then c else c0 with hp
    have hstep : bestCandidate a_eval c0 (c :: cs) = bestCandidate a_eval p cs := rfl
    have hple0 : objective a_eval p ≤ objective a_eval c0 := by
      by_cases hc : objective a_eval c < objective a_eval c0
      · simp only [hp, if_pos hc]; exact le_of_lt hc
      · simp only [hp, if_neg hc]; exact le_refl _
    have hplec : objective a_eval p ≤ objective a_eval c := by
      by_cases hc : objective a_eval c < objective a_eval c0
      · simp only [hp, if_pos hc]; exact le_refl _
      · simp only [hp, if_neg hc]; exact le_of_not_lt hc
    have hbest : objective a_eval (bestCandidate a_eval p cs) ≤ objective a_eval p :=
      ih p p (List.mem_cons_self _ _)
    rw [hstep]
    rcases List.mem_cons.mp hy with h | h
    · subst h; exact hbest.trans hple0
    rcases List.mem_cons.mp h with h | h
    · subst h; exact hbest.trans hplec
    · exact ih p y (List.mem_cons_of_mem _ h)

lemma init_le_foldl_max (l : List ℚ) : ∀ acc : ℚ, acc ≤ l.foldl max acc := by
  induction l with
  | nil => intro acc; exact le_refl _
  | cons x l ih =>
    intro acc
    exact le_trans (le_max_left acc x) (ih (max acc x))

lemma mem_le_foldl_max (l : List ℚ) : ∀ acc : ℚ, ∀ x ∈ l, x ≤ l.foldl max acc := by
  induction l with
  | nil => intro acc x hx; cases hx
  | cons y l ih =>
    intro acc x hx
    rcases List.mem_cons.mp hx with h | h
    · subst h
      exact le_trans (le_max_right acc x) (init_le_foldl_max l (max acc x))
    · exact ih (max acc y) x h

/-- C1: `PowerLawErasure.__init__`/`_compute_evolution` marks the instance
degenerate (and never raises: `computeEvolution` is total) exactly when the
ODE solve fails, a sampled density is negative, or the total physical density
deviates from 1 by more than 0.5 at some sample; `fit_erasure.objective`
returns the sentinel `1e10` whenever the instance is degenerate or the
chi-squared is NaN/infinite; hence the candidate `differential_evolution`
returns (the evaluated candidate of least objective) is never degenerate as
long as some evaluated candidate is non-degenerate with chi-squared below
`1e10`. -/
theorem degenerate_marking_and_rejection :
    (∀ (a_eval : List ℚ) (sol : Option (List ℚ × List ℚ)),
        (computeEvolution a_eval sol).failed = true ↔
          sol = none ∨ ∃ om ode, sol = some (om, ode) ∧
            (hasNegative om ode = true ∨ 1/2 < maxDeviation (zGrid a_eval) om ode))
    ∧ (∀ (a_eval : List ℚ) (cand : Candidate),
        ((computeEvolution a_eval cand.sol).failed = true ∨ cand.chi2 = none) →
        objective a_eval cand = 1e10)
    ∧ (∀ (a_eval : List ℚ) (c0 : Candidate) (cs : List Candidate)
        (good : Candidate) (v : ℚ),
        good ∈ c0 :: cs →
        (computeEvolution a_eval good.sol).failed = false →
        good.chi2 = some v → v < 1e10 →
        (computeEvolution a_eval (bestCandidate a_eval c0 cs).sol).failed = false) := by
  refine ⟨?_, ?_, ?_⟩
  · intro a_eval sol
    cases sol with
    | none => simp [computeEvolution, degenerateGrids]
    | some g =>
      obtain ⟨om, ode⟩ := g
      simp only [computeEvolution]
      by_cases hneg : hasNegative om ode = true
      · rw [if_pos hneg]
        refine iff_of_true rfl (Or.inr ⟨om, ode, rfl, Or.inl hneg⟩)
      · rw [if_neg hneg]
        by_cases hdev : 1/2 < maxDeviation (zGrid a_eval) om ode
        · rw [if_pos hdev]
          refine iff_of_true rfl (Or.inr ⟨om, ode, rfl, Or.inr hdev⟩)
        · rw [if_neg hdev]
          refine iff_of_false (by simp) ?_
          rintro (h | ⟨om', ode', heq, hbad⟩)
          · exact Option.noConfusion h
          · injection heq with h1
            injection h1 with e1 e2
            subst e1; subst e2
            rcases hbad with hb | hb
            · exact hneg hb
            · exact hdev hb
  · intro a_eval cand h
    rcases h with h | h
    · simp [objective, h]
    · by_cases hf : (computeEvolution a_eval cand.sol).failed
      · simp [objective, hf]
      · simp [objective, hf, h]
  · intro a_eval c0 cs good v hmem hgood hchi hlt
    have hle := bestCandidate_le a_eval c0 cs good hmem
    have hgoodval : objective a_eval good = v := by
      simp [objective, hgood, hchi]
    cases hb : (computeEvolution a_eval (bestCandidate a_eval c0 cs).sol).failed with
    | false => rfl
    | true =>
      exfalso
      have hbad : objective a_eval (bestCandidate a_eval c0 cs) = 1e10 := by
        simp [objective, hb]
      rw [hbad, hgoodval] at hle
      exact absurd (lt_of_le_of_lt hle hlt) (lt_irrefl _)

/-- Witness for C1: on a two-candidate list whose first candidate's ODE solve
failed and whose second is non-degenerate with chi-squared 0, the optimizer's
pick is non-degenerate. -/
theorem degenerate_marking_and_rejection_witness :
    (computeEvolution [1/2, 1] (some ([2, 1/2], [3/4, 1/2]))).failed = false ∧
    (0 : ℚ) < 1e10 ∧
    (computeEvolution [1/2, 1]
      (bestCandidate [1/2, 1] ⟨none, some 0⟩
        [⟨some ([2, 1/2], [3/4, 1/2]), some 0⟩]).sol).failed = false :=
  ⟨by norm_num [computeEvolution, hasNegative, maxDeviation, deviations, zGrid],
    by norm_num,
    degenerate_marking_and_rejection.2.2 [1/2, 1] ⟨none, some 0⟩
      [⟨some ([2, 1/2], [3/4, 1/2]), some 0⟩]
      ⟨some ([2, 1/2], [3/4, 1/2]), some 0⟩ 0
      (List.mem_cons_of_mem _ (List.mem_cons_self _ _))
      (by norm_num [computeEvolution, hasNegative, maxDeviation, deviations, zGrid])
      rfl (by norm_num)⟩

/-- C4: every accepted (non-degenerate) `PowerLawErasure` instance satisfies
the construction-time acceptance criterion on its stored grid: at every
sample, the total physical density `Om/(1+z)^3 + Ode` is within 0.5 of 1. -/
theorem accepted_grid_energy_bound (a_eval : List ℚ)
    (sol : Option (List ℚ × List ℚ))
    (h : (computeEvolution a_eval sol).failed = false) :
    ∀ t ∈ ((computeEvolution a_eval sol).z_grid.zip
        ((computeEvolution a_eval sol).om_grid.zip
          (computeEvolution a_eval sol).ode_grid)),
      |t.2.1 / (1 + t.1) ^ 3 + t.2.2 - 1| ≤ 1/2 := by
  cases sol with
  | none => simp [computeEvolution, degenerateGrids] at h
  | some g =>
    obtain ⟨om, ode⟩ := g
    simp only [computeEvolution] at h ⊢
    by_cases hneg : hasNegative om ode = true
    · rw [if_pos hneg] at h; simp [degenerateGrids] at h
    · rw [if_neg hneg] at h ⊢
      by_cases hdev : 1/2 < maxDeviation (zGrid a_eval) om ode
      · rw [if_pos hdev] at h; simp [degenerateGrids] at h
      · rw [if_neg hdev] at h ⊢
        intro t ht
        have hmem : |t.2.1 / (1 + t.1) ^ 3 + t.2.2 - 1| ∈
            deviations (zGrid a_eval) om ode :=
          List.mem_map_of_mem _ ht
        have hlemax := mem_le_foldl_max (deviations (zGrid a_eval) om ode) 0 _ hmem
        exact le_trans hlemax (le_of_not_lt hdev)

/-- Witness for C4: a concrete accepted instance, and the energy bound at the
first sample of its grid. -/
theorem accepted_grid_energy_bound_witness :
    (computeEvolution [1/2, 1] (some ([2, 1/2], [3/4, 1/2]))).failed = false ∧
    |(2 : ℚ) / (1 + 1) ^ 3 + 3/4 - 1| ≤ 1/2 :=
  ⟨by norm_num [computeEvolution, hasNegative, maxDeviation, deviations, zGrid],
    accepted_grid_energy_bound [1/2, 1] (some ([2, 1/2], [3/4, 1/2]))
      (by norm_num [computeEvolution, hasNegative, maxDeviation, deviations, zGrid])
      ((1 : ℚ), ((2 : ℚ), (3/4 : ℚ)))
      (by norm_num [computeEvolution, hasNegative, maxDeviation, deviations, zGrid])⟩

lemma clip_lower_bound (x : ℝ) : (1e-10 : ℝ) ≤ clip x 1e-10 10 :=
  le_min (by norm_num) (le_max_right _ _)

/-- C2: the density-evolution derivative clips the densities, returns `(0,0)`
in the degenerate branch, caps `a^(-alpha)` at `1e6` in the guarded regime,
clamps the interaction term to `±100·Om/a`, and always satisfies
`dOm/da + dOde/da = -3·Om/a` (with the clipped `Om`) outside the degenerate
branch: the interaction cancels between the two components. -/
theorem derivatives_conservation :
    (∀ beta alpha a Om Ode : ℝ,
        clip Om 1e-10 10 / a ^ 3 + clip Ode 1e-10 10 < 1e-10 →
        derivatives beta alpha a Om Ode = (0, 0))
    ∧ (∀ alpha a : ℝ, alpha < 0 → a < 0.01 → aAlphaTerm alpha a ≤ 1e6)
    ∧ (∀ beta alpha a Om Ode : ℝ, 0 < a →
        ¬(clip Om 1e-10 10 / a ^ 3 + clip Ode 1e-10 10 < 1e-10) →
        (derivatives beta alpha a Om Ode).1 + (derivatives beta alpha a Om Ode).2 =
          -(3 * clip Om 1e-10 10 / a)
        ∧ |(derivatives beta alpha a Om Ode).2| ≤ 100 * clip Om 1e-10 10 / a
        ∧ (derivatives beta alpha a Om Ode).1 =
            -(3 * clip Om 1e-10 10 / a) - (derivatives beta alpha a Om Ode).2) := by
  refine ⟨?_, ?_, ?_⟩
  · intro beta alpha a Om Ode h
    unfold derivatives
    rw [if_pos h]
  · intro alpha a h1 h2
    unfold aAlphaTerm
    rw [if_pos ⟨h1, h2⟩]
    exact min_le_right _ _
  · intro beta alpha a Om Ode ha hE
    have hOmc : (1e-10 : ℝ) ≤ clip Om 1e-10 10 := clip_lower_bound Om
    have hhi : (0 : ℝ) < 100 * clip Om 1e-10 10 / a := by
      apply div_pos _ ha
      nlinarith
    have hfst : (derivatives beta alpha a Om Ode).1 =
        -(3 * clip Om 1e-10 10 / a) - (derivatives beta alpha a Om Ode).2 := by
      unfold derivatives
      rw [if_neg hE]
    have hsnd : (derivatives beta alpha a Om Ode).2 =
        clip (beta * clip Om 1e-10 10 * aAlphaTerm alpha a /
            (a ^ 4 * Real.sqrt (clip Om 1e-10 10 / a ^ 3 + clip Ode 1e-10 10)))
          (-100 * clip Om 1e-10 10 / a) (100 * clip Om 1e-10 10 / a) := by
      unfold derivatives
      rw [if_neg hE]
    refine ⟨by rw [hfst]; ring, ?_, hfst⟩
    rw [hsnd, abs_le]
    set O := clip Om 1e-10 10 with hO
    simp only [clip]
    constructor
    · refine le_min (by linarith) ?_
      exact le_trans (le_of_eq (by ring : -(100 * O / a) = -100 * O / a))
        (le_max_right _ _)
    · exact min_le_left _ _

/-- Witness for C2: a concrete non-degenerate evaluation point. -/
theorem derivatives_conservation_witness :
    (derivatives 0 (-2) 1 (3/10) (7/10)).1 + (derivatives 0 (-2) 1 (3/10) (7/10)).2 =
      -(3 * clip (3/10) 1e-10 10 / 1) :=
  (derivatives_conservation.2.2 0 (-2) 1 (3/10) (7/10) (by norm_num)
    (by
      have h3 : clip (3/10 : ℝ) 1e-10 10 = 3/10 := by
        unfold clip
        rw [max_eq_left (by norm_num), min_eq_right (by norm_num)]
      have h7 : clip (7/10 : ℝ) 1e-10 10 = 7/10 := by
        unfold clip
        rw [max_eq_left (by norm_num), min_eq_right (by norm_num)]
      rw [h3, h7]
      norm_num)).1

lemma chi_squared_foldl (mu : ℝ → Option ℝ) :
    ∀ (data : List (ℝ × ℝ × ℝ)) (acc : ℝ × ℕ),
      data.foldl (fun acc obs =>
        match mu obs.1 with
        | none => acc
        | some m => (acc.1 + ((obs.2.1 - m) / obs.2.2) ^ 2, acc.2 + 1)) acc =
      (acc.1 + ((data.filterMap
          (fun o => (mu o.1).map (fun m => ((o.2.1 - m) / o.2.2) ^ 2))).sum),
       acc.2 + (data.filter (fun o => (mu o.1).isSome)).length) := by
  intro data
  induction data with
  | nil => intro acc; simp
  | cons o data ih =>
    intro acc
    cases hmu : mu o.1 with
    | none =>
      simp only [List.foldl_cons, hmu, List.filterMap_cons, List.filter_cons]
      rw [ih acc]
      simp [hmu]
    | some m =>
      simp only [List.foldl_cons, hmu]
      rw [ih (acc.1 + ((o.2.1 - m) / o.2.2) ^ 2, acc.2 + 1)]
      simp [hmu, List.filterMap_cons, List.filter_cons, Prod.ext_iff]
      refine ⟨by ring, by omega⟩

/-- C6: `chi_squared` returns exactly the sum of `((mu_obs - mu_model)/err)²`
over the observations with a valid (non-NaN) model prediction, paired with
the count of those observations; invalid predictions contribute to neither.
(Purity and repeatability are inherent: the embedding is a mathematical
function of `mu` and `data` alone.) -/
theorem chi_squared_valid_sum (mu : ℝ → Option ℝ) (data : List (ℝ × ℝ × ℝ)) :
    chi_squared mu data =
      ((data.filterMap
          (fun o => (mu o.1).map (fun m => ((o.2.1 - m) / o.2.2) ^ 2))).sum,
       (data.filter (fun o => (mu o.1).isSome)).length) := by
  unfold chi_squared
  rw [chi_squared_foldl]
  simp

/-- C7: `model_comparison` computes `Δχ² = χ²_A - χ²_B`,
`ΔAIC = (χ²_A + 2·2) - (χ²_B + 2·4)`, `ΔBIC` with `k·ln n` penalties at
`n = dof_A + 2`, and classifies each delta by the spec's fixed thresholds
(`Δk = 2`). -/
theorem model_comparison_formulas (cA dA cB dB : ℝ) :
    (model_comparison cA dA cB dB).delta_chi2 = cA - cB
    ∧ (model_comparison cA dA cB dB).delta_aic = (cA + 2 * 2) - (cB + 2 * 4)
    ∧ (model_comparison cA dA cB dB).delta_bic =
        (cA + 2 * Real.log (dA + 2)) - (cB + 4 * Real.log (dA + 2))
    ∧ (model_comparison cA dA cB dB).chi2_verdict = specChi2Class (cA - cB) 2
    ∧ (model_comparison cA dA cB dB).aic_verdict =
        specAICClass ((cA + 2 * 2) - (cB + 2 * 4))
    ∧ (model_comparison cA dA cB dB).bic_verdict =
        specBICClass ((cA + 2 * Real.log (dA + 2)) - (cB + 4 * Real.log (dA + 2))) :=
  ⟨rfl, rfl, rfl, rfl, rfl, rfl⟩

/-- C8 counterexample: on the fixture with `Δχ² = 3` (and `Δk = 2`), the code
classifies the pair as comparable, not as weak evidence: the weak-evidence
branch requires `Δχ² > 2·Δk = 4`. -/
theorem chi2_weak_fixture_counterexample :
    (model_comparison 6 10 3 10).chi2_verdict = Verdict.comparable ∧
    Verdict.comparable ≠ Verdict.weakB := by
  constructor
  · show (if (6:ℝ) - 3 > 10 * 2 then Verdict.strongB
      else if (6:ℝ) - 3 > 2 * 2 then Verdict.weakB
      else if (6:ℝ) - 3 > 0 then Verdict.comparable
      else Verdict.aPreferred) = Verdict.comparable
    rw [if_neg (by norm_num), if_neg (by norm_num), if_pos (by norm_num)]
  · decide

/-- C8 amended: the synthetic fixtures with `Δχ² = 25`, `3`, `-1` (`Δk = 2`)
are classified strong evidence for B, comparable, and A preferred
respectively (determinism is inherent: the embedding is a function). -/
theorem chi2_fixtures_amended :
    (model_comparison 28 10 3 10).chi2_verdict = Verdict.strongB ∧
    (model_comparison 6 10 3 10).chi2_verdict = Verdict.comparable ∧
    (model_comparison 2 10 3 10).chi2_verdict = Verdict.aPreferred := by
  refine ⟨?_, ?_, ?_⟩
  · show (if (28:ℝ) - 3 > 10 * 2 then Verdict.strongB
      else if (28:ℝ) - 3 > 2 * 2 then Verdict.weakB
      else if (28:ℝ) - 3 > 0 then Verdict.comparable
      else Verdict.aPreferred) = Verdict.strongB
    rw [if_pos (by norm_num)]
  · show (if (6:ℝ) - 3 > 10 * 2 then Verdict.strongB
      else if (6:ℝ) - 3 > 2 * 2 then Verdict.weakB
      else if (6:ℝ) - 3 > 0 then Verdict.comparable
      else Verdict.aPreferred) = Verdict.comparable
    rw [if_neg (by norm_num), if_neg (by norm_num), if_pos (by norm_num)]
  · show (if (2:ℝ) - 3 > 10 * 2 then Verdict.strongB
      else if (2:ℝ) - 3 > 2 * 2 then Verdict.weakB
      else if (2:ℝ) - 3 > 0 then Verdict.comparable
      else Verdict.aPreferred) = Verdict.aPreferred
    rw [if_neg (by norm_num), if_neg (by norm_num), if_neg (by norm_num)]

lemma zGrid_strict_anti :
    ∀ l : List ℚ, (∀ a ∈ l, 0 < a) → l.Chain' (fun x y => x < y) →
      (zGrid l).Chain' (fun x y => y < x) := by
  intro l
  induction l with
  | nil => intro _ _; simp [zGrid]
  | cons a l ih =>
    intro hpos hchain
    cases l with
    | nil => simp [zGrid]
    | cons b l2 =>
      have hab : a < b := (List.chain'_cons.mp hchain).1
      have ha : 0 < a := hpos a (List.mem_cons_self _ _)
      have htail := ih (fun x hx => hpos x (List.mem_cons_of_mem _ hx))
        (List.chain'_cons.mp hchain).2
      have hhead : 1 / b - 1 < 1 / a - 1 := by
        have := one_div_lt_one_div_of_lt ha hab
        linarith
      simp only [zGrid, List.map_cons] at htail ⊢
      exact List.chain'_cons.mpr ⟨hhead, htail⟩

/-- C3 (code bug): the redshift grid `PowerLawErasure` stores is strictly
decreasing whenever the scale-factor samples are positive and strictly
increasing (as `np.logspace(-2, 0, 500)` is), so `E` hands `np.interp` an
abscissa list violating its increasing-`xp` precondition; on such a grid the
bounds checks of `np.interp` fire for every interior query and it returns an
edge value instead of the interpolated one: on the grid z = [99, 9, 0],
Om = [0.99, 0.5, 0.3], the query z = 9 yields 0.3 (the z = 0 edge value)
where clamped linear interpolation yields 0.5. -/
theorem interp_grid_misordered :
    (∀ l : List ℚ, (∀ a ∈ l, 0 < a) → l.Chain' (fun x y => x < y) →
      (zGrid l).Chain' (fun x y => y < x))
    ∧ npInterp 9 [99, 9, 0] [99/100, 1/2, 3/10] (99/100) (3/10) = 3/10
    ∧ linInterpClamped 9 [0, 9, 99] [3/10, 1/2, 99/100] = 1/2
    ∧ (3/10 : ℚ) ≠ 1/2 := by
  refine ⟨zGrid_strict_anti, ?_, ?_, by norm_num⟩
  · norm_num [npInterp, List.getLastD]
  · norm_num [linInterpClamped, scanSegments, List.getLastD]

/-- Witness for C3: the grid built from a concrete increasing scale-factor
list is strictly decreasing. -/
theorem interp_grid_misordered_witness :
    (zGrid [1/100, 1/10, 1]).Chain' (fun x y => y < x) ∧
    npInterp 9 [99, 9, 0] [99/100, 1/2, 3/10] (99/100) (3/10) = 3/10 :=
  ⟨interp_grid_misordered.1 [1/100, 1/10, 1] (by norm_num) (by norm_num),
   interp_grid_misordered.2.1⟩

/-- C5: `luminosity_distance` returns the NaN sentinel whenever the
quadrature oracle fails (non-convergence, non-positive `E` making the
integrand invalid, or a failing `E` evaluation) on the integral branch, and
`distance_modulus` returns `5·log10(D_L) + 25` for positive finite `D_L` and
the NaN sentinel for `D_L ≤ 0` or NaN; both are total functions of their
inputs, so neither throws. -/
theorem distance_sentinels :
    (∀ (H0 z : ℝ) (q : Option ℝ), 1e-5 ≤ z → q = none →
        luminosity_distance H0 z q = none)
    ∧ (∀ d : ℝ, distance_modulus (some d) =
        if 0 < d then some (5 * Real.logb 10 d + 25) else none)
    ∧ distance_modulus none = none := by
  refine ⟨?_, ?_, rfl⟩
  · intro H0 z q hz hq
    subst hq
    rw [luminosity_distance, if_neg (not_lt.mpr hz)]
  · intro d
    show (if d ≤ 0 then none else some (5 * Real.logb 10 d + 25)) = _
    by_cases hd : d ≤ 0
    · rw [if_pos hd, if_neg (not_lt.mpr hd)]
    · rw [if_neg hd, if_pos (lt_of_not_le hd)]

/-- Witness for C5: a failed quadrature at `z = 1`, and the sentinel branch
of `distance_modulus` at `D_L = -1`. -/
theorem distance_sentinels_witness :
    luminosity_distance 70 1 none = none ∧ distance_modulus (some (-1)) = none := by
  constructor
  · exact distance_sentinels.1 70 1 none (by norm_num) rfl
  · rw [distance_sentinels.2.1 (-1), if_neg (by norm_num)]

lemma oneDiv_contOn {E : ℝ → ℝ} {a b : ℝ} (hc : ContinuousOn E (Set.Icc a b))
    (hp : ∀ x ∈ Set.Icc a b, 0 < E x) :
    ContinuousOn (fun t => 1 / E t) (Set.Icc a b) :=
  ContinuousOn.div continuousOn_const hc (fun x hx => (hp x hx).ne')

lemma oneDiv_intervalIntegrable {E : ℝ → ℝ} {a b : ℝ} (hab : a ≤ b)
    (hc : ContinuousOn E (Set.Icc a b)) (hp : ∀ x ∈ Set.Icc a b, 0 < E x) :
    IntervalIntegrable (fun t => 1 / E t) MeasureTheory.volume a b :=
  ContinuousOn.intervalIntegrable_of_Icc hab (oneDiv_contOn hc hp)

lemma integral_oneDiv_pos {E : ℝ → ℝ} {a b : ℝ} (hab : a < b)
    (hc : ContinuousOn E (Set.Icc a b)) (hp : ∀ x ∈ Set.Icc a b, 0 < E x) :
    0 < ∫ t in a..b, 1 / E t :=
  intervalIntegral.intervalIntegral_pos_of_pos_on
    (oneDiv_intervalIntegrable hab.le hc hp)
    (fun x hx => by
      have hx' : x ∈ Set.Icc a b := ⟨hx.1.le, hx.2.le⟩
      exact one_div_pos.mpr (hp x hx'))
    hab

/-- C9 counterexample: a valid expansion history (`E ≡ 2`, positive and
finite on `[0, 5]`) for which the luminosity distance is NOT strictly
increasing across the `z = 1e-5` branch switch: the linear branch at
`z = 9e-6` exceeds the quadrature branch at `z = 1e-5`. -/
theorem lum_dist_mono_counterexample :
    (0:ℝ) < 2 ∧ (0:ℝ) < 9e-6 ∧ (9e-6:ℝ) < 1e-5 ∧ (1e-5:ℝ) ≤ 5 ∧
    lumDistConv 70 (fun _ => 2) 1e-5 < lumDistConv 70 (fun _ => 2) 9e-6 := by
  refine ⟨by norm_num, by norm_num, by norm_num, by norm_num, ?_⟩
  unfold lumDistConv
  rw [if_neg (by norm_num : ¬(1e-5:ℝ) < 1e-5), if_pos (by norm_num : (9e-6:ℝ) < 1e-5)]
  have hbeta : (∫ t in (0:ℝ)..(1e-5:ℝ), 1 / (fun _ : ℝ => (2:ℝ)) t) = (1e-5:ℝ) / 2 := by
    norm_num [intervalIntegral.integral_const]
  rw [hbeta]
  have hcpos : (0:ℝ) < cLight / 70 := by norm_num [cLight]
  rw [mul_assoc]
  exact mul_lt_mul_of_pos_left (by norm_num) hcpos

/-- C9 amended: for a valid expansion history (continuous and positive on
`[0, 5]`), the luminosity distance is strictly increasing within each branch
separately: on `(0, 1e-5)` (linear branch) and on `[1e-5, 5]` (quadrature
branch); across the branch switch strict monotonicity can fail (see the
counterexample). -/
theorem lum_dist_strict_mono (H0 : ℝ) (E : ℝ → ℝ) (hH : 0 < H0)
    (hc : ContinuousOn E (Set.Icc 0 5))
    (hp : ∀ x ∈ Set.Icc (0:ℝ) 5, 0 < E x) :
    (∀ z1 z2 : ℝ, 0 < z1 → z1 < z2 → z2 < 1e-5 →
        lumDistConv H0 E z1 < lumDistConv H0 E z2)
    ∧ (∀ z1 z2 : ℝ, 1e-5 ≤ z1 → z1 < z2 → z2 ≤ 5 →
        lumDistConv H0 E z1 < lumDistConv H0 E z2) := by
  have hcpos : (0:ℝ) < cLight / H0 := by
    apply div_pos _ hH
    norm_num [cLight]
  constructor
  · intro z1 z2 h1 h12 h2
    rw [lumDistConv, if_pos (lt_trans h12 h2), lumDistConv, if_pos h2]
    exact mul_lt_mul_of_pos_left h12 hcpos
  · intro z1 z2 h1e h12 h25
    have h01 : (0:ℝ) < z1 := lt_of_lt_of_le (by norm_num) h1e
    have hsub1 : Set.Icc (0:ℝ) z1 ⊆ Set.Icc (0:ℝ) 5 :=
      Set.Icc_subset_Icc (le_refl _) (by linarith)
    have hsub2 : Set.Icc z1 z2 ⊆ Set.Icc (0:ℝ) 5 :=
      Set.Icc_subset_Icc (by linarith) h25
    have hint1 : IntervalIntegrable (fun t => 1 / E t) MeasureTheory.volume 0 z1 :=
      oneDiv_intervalIntegrable h01.le (hc.mono hsub1) (fun x hx => hp x (hsub1 hx))
    have hint2 : IntervalIntegrable (fun t => 1 / E t) MeasureTheory.volume z1 z2 :=
      oneDiv_intervalIntegrable h12.le (hc.mono hsub2) (fun x hx => hp x (hsub2 hx))
    have hI1 : 0 < ∫ t in (0:ℝ)..z1, 1 / E t :=
      integral_oneDiv_pos h01 (hc.mono hsub1) (fun x hx => hp x (hsub1 hx))
    have hI12 : 0 < ∫ t in z1..z2, 1 / E t :=
      integral_oneDiv_pos h12 (hc.mono hsub2) (fun x hx => hp x (hsub2 hx))
    have hsplit : (∫ t in (0:ℝ)..z1, 1 / E t) + ∫ t in z1..z2, 1 / E t =
        ∫ t in (0:ℝ)..z2, 1 / E t :=
      intervalIntegral.integral_add_adjacent_intervals hint1 hint2
    have hII : (∫ t in (0:ℝ)..z1, 1 / E t) < ∫ t in (0:ℝ)..z2, 1 / E t := by
      rw [← hsplit]; linarith
    rw [lumDistConv, if_neg (not_lt.mpr h1e), lumDistConv,
      if_neg (not_lt.mpr (le_of_lt (lt_of_le_of_lt h1e h12)))]
    rw [mul_assoc, mul_assoc]
    refine mul_lt_mul_of_pos_left ?_ hcpos
    exact mul_lt_mul'' hII (by linarith) hI1.le (by linarith)

/-- Witness for C9: the quadrature branch is strictly increasing from
`z = 1` to `z = 2` for the constant history `E ≡ 1`. -/
theorem lum_dist_strict_mono_witness :
    lumDistConv 70 (fun _ => 1) 1 < lumDistConv 70 (fun _ => 1) 2 :=
  (lum_dist_strict_mono 70 (fun _ => 1) (by norm_num)
    continuous_const.continuousOn (fun x _ => by norm_num)).2
    1 2 (by norm_num) (by norm_num) (by norm_num)

/-- C10: for `0 < Om0 ≤ 1` and `H0 > 0`, the ΛCDM history satisfies
`E(z) ≥ 1 > 0` for every `z ≥ 0`, so in the idealized quadrature model the
luminosity distance is strictly positive for every `z > 0` and the distance
modulus takes its formula branch (never the NaN sentinel): the failure
branches are unreachable for the fitted ΛCDM models. -/
theorem lcdm_no_invalid (Om0 H0 : ℝ) (h0 : 0 < Om0) (h1 : Om0 ≤ 1) (hH : 0 < H0) :
    (∀ z : ℝ, 0 ≤ z → 1 ≤ E_lcdm Om0 z)
    ∧ (∀ z : ℝ, 0 < z → 0 < lumDistConv H0 (E_lcdm Om0) z
        ∧ distance_modulus (some (lumDistConv H0 (E_lcdm Om0) z)) =
            some (5 * Real.logb 10 (lumDistConv H0 (E_lcdm Om0) z) + 25)) := by
  have hE1 : ∀ z : ℝ, 0 ≤ z → 1 ≤ E_lcdm Om0 z := by
    intro z hz
    rw [E_lcdm, Real.one_le_sqrt]
    have hcube : (0:ℝ) ≤ 3 * z + 3 * z ^ 2 + z ^ 3 := by
      nlinarith [sq_nonneg z, mul_nonneg hz (sq_nonneg z)]
    nlinarith [mul_nonneg h0.le hcube]
  have hcpos : (0:ℝ) < cLight / H0 := by
    apply div_pos _ hH
    norm_num [cLight]
  refine ⟨hE1, ?_⟩
  intro z hz
  have hEcont : Continuous (E_lcdm Om0) := by
    apply Real.continuous_sqrt.comp
    continuity
  have hpos : 0 < lumDistConv H0 (E_lcdm Om0) z := by
    rw [lumDistConv]
    by_cases hsmall : z < 1e-5
    · rw [if_pos hsmall]
      exact mul_pos hcpos hz
    · rw [if_neg hsmall]
      have hI : 0 < ∫ t in (0:ℝ)..z, 1 / E_lcdm Om0 t :=
        integral_oneDiv_pos hz (hEcont.continuousOn)
          (fun x hx => lt_of_lt_of_le one_pos (hE1 x hx.1))
      have : 0 < (∫ t in (0:ℝ)..z, 1 / E_lcdm Om0 t) * (1 + z) :=
        mul_pos hI (by linarith)
      rw [mul_assoc]
      exact mul_pos hcpos this
  refine ⟨hpos, ?_⟩
  show (if lumDistConv H0 (E_lcdm Om0) z ≤ 0 then none
      else some (5 * Real.logb 10 (lumDistConv H0 (E_lcdm Om0) z) + 25)) = _
  rw [if_neg (not_le.mpr hpos)]

/-- Witness for C10: the fitted-range point `Om0 = 0.3`, `H0 = 70` at
`z = 1`. -/
theorem lcdm_no_invalid_witness :
    1 ≤ E_lcdm (3/10) 1 ∧ 0 < lumDistConv 70 (E_lcdm (3/10)) 1 :=
  ⟨(lcdm_no_invalid (3/10) 70 (by norm_num) (by norm_num) (by norm_num)).1
      1 (by norm_num),
   ((lcdm_no_invalid (3/10) 70 (by norm_num) (by norm_num) (by norm_num)).2
      1 (by norm_num)).1⟩

end Cosmo
